import Mathlib

/-!
Verification of the terraform-sbom tool (module discovery, SBOM generation,
and export) against its specification.

The filesystem is modelled as a finite tree of entries.  Pure Go functions
from `internal/sbom` (finder, generator), `internal/export`, and the
duplicated copies in `main.go` are embedded as Lean functions.  The external
Terraform parser (`tfconfig.LoadModule`) is an opaque collaborator and is
modelled as a function parameter returning either diagnostics or the list of
module calls it observed; since Go stores the calls of one directory in a
`map` whose iteration order is randomised per run, distinct runs over the same
filesystem state are modelled by distinct parameter functions whose per-
directory results are permutations of one another.  The current time is a
string parameter (the RFC3339-formatted generation instant).
-/

namespace TfSbom

mutual
/-- Filesystem entry: a plain file, a readable directory with its listed
children, or a directory whose listing fails (`os.ReadDir` error, e.g. an
unreadable directory). -/
inductive FSEntry where
  | file (name : String)
  | dir (name : String) (children : FSList)
  | badDir (name : String)
  deriving Repr, DecidableEq
inductive FSList where
  | nil
  | cons (e : FSEntry) (rest : FSList)
  deriving Repr, DecidableEq
end

def FSEntry.name : FSEntry → String
  | .file n => n
  | .dir n _ => n
  | .badDir n => n

/-- `DirEntry.IsDir` of the Go standard library: true for directories,
including ones whose listing later fails. -/
def FSEntry.isDir : FSEntry → Bool
  | .file _ => false
  | .dir _ _ => true
  | .badDir _ => true

def FSList.toList : FSList → List FSEntry
  | .nil => []
  | .cons e rest => e :: rest.toList

/-- Entries observable by `os.ReadDir`: the listing for a readable directory,
nothing for a file or for a directory whose listing fails. -/
def FSEntry.entries : FSEntry → List FSEntry
  | .dir _ children => children.toList
  | _ => []

/-- Go `strings.HasPrefix`, on the character lists underlying the strings. -/
def goStartsWith (s pre : String) : Bool := pre.data.isPrefixOf s.data

/-- Go `strings.HasSuffix`, on the character lists underlying the strings. -/
def goEndsWith (s suf : String) : Bool := suf.data.isSuffixOf s.data

/-- Go `strings.TrimSuffix`. -/
def goTrimSuffix (s suf : String) : String :=
  if goEndsWith s suf then String.mk (s.data.take (s.data.length - suf.data.length)) else s

/-- Go `filepath.Ext` on a Unix path, computed on the reversed character
list: scan backwards until a path separator; the extension starts at the
first dot found, and is empty if none occurs. -/
def filepathExtRev : List Char → Option (List Char)
  | [] => none
  | c :: cs =>
      if c = '/' then none
      else if c = '.' then some [c]
      else (filepathExtRev cs).map (fun e => c :: e)

/-- Go `filepath.Ext`: the suffix beginning at the final dot in the final
slash-separated element of the path; empty if there is no dot. -/
def filepathExt (path : String) : String :=
  String.mk ((filepathExtRev path.data.reverse).getD []).reverse

/-- Go `filepath.Base` on a Unix path: empty path gives ".", trailing
slashes are stripped, the last slash-separated element is returned, and a
path made only of slashes gives "/". -/
def filepathBase (path : String) : String :=
  if path = "" then "."
  else
    let r := path.data.reverse.dropWhile (fun c => c = '/')
    let base := r.takeWhile (fun c => c ≠ '/')
    if base.isEmpty then "/" else String.mk base.reverse

/-- Go `strings.Split` with a one-character separator, on character lists.
Splitting the empty list yields one empty part, as in Go. -/
def goSplitChar (sep : Char) : List Char → List (List Char)
  | [] => [[]]
  | c :: cs =>
      if c = sep then [] :: goSplitChar sep cs
      else
        match goSplitChar sep cs with
        | [] => [[c]]
        | p :: ps => (c :: p) :: ps

/-- Go `strings.Split` with a one-character separator. -/
def goSplit (s : String) (sep : Char) : List String :=
  (goSplitChar sep s.data).map String.mk

/-- `HasTerraformFiles` (package `internal/sbom`): true when `os.ReadDir`
succeeds on the directory and some listed entry is a non-directory whose
name ends in ".tf".  A file path or an unreadable directory gives false,
because `os.ReadDir` fails there. -/
def HasTerraformFiles : FSEntry → Bool
  | .dir _ children =>
      children.toList.any fun e => !e.isDir && goEndsWith e.name ".tf"
  | _ => false

/-- `ValidateTerraformDirectory` (package `internal/sbom`).  The embedding
takes the result of statting the path (`none` when the path does not exist)
and returns the statted entry on success, where the Go function returns a
nil error; later phases of `Generate` then act on that same entry. -/
def ValidateTerraformDirectory (entry : Option FSEntry) (path : String) :
    Except String FSEntry :=
  match entry with
  | none => Except.error ("path does not exist: " ++ path)
  | some e =>
      if e.isDir then Except.ok e
      else Except.error ("path must be a directory containing Terraform files: " ++ path)

mutual
/-- The `filepath.WalkDir` traversal inside `FindTerraformModules`
(package `internal/sbom`), collecting the paths the callback appends to
`modules`.  The callback skips a hidden directory (name starting with ".")
together with its subtree unless its path is the root, appends the path of
every visited directory that has Terraform files, and on a filesystem error
(unreadable directory) merely logs a warning and continues, so a `badDir`
contributes nothing and aborts nothing. -/
def walkTf (rootPath : String) (path : String) (e : FSEntry) : List String :=
  match e with
  | .file _ => []
  | .badDir name =>
      if goStartsWith name "." && path != rootPath then []
      else []
  | .dir name children =>
      if goStartsWith name "." && path != rootPath then []
      else
        (if HasTerraformFiles (.dir name children) then [path] else [])
          ++ walkTfList rootPath path children
termination_by structural e
def walkTfList (rootPath : String) (path : String) (l : FSList) : List String :=
  match l with
  | .nil => []
  | .cons c rest =>
      walkTf rootPath (path ++ "/" ++ c.name) c ++ walkTfList rootPath path rest
termination_by structural l
end

/-- `FindTerraformModules` (package `internal/sbom`).  Non-recursive mode
returns the root path alone when the root has Terraform files and an empty
slice otherwise; recursive mode walks the tree.  The walk callback never
returns a non-nil error (it logs and continues), so the error result is
always nil, modelled as `none`. -/
def FindTerraformModules (rootPath : String) (root : FSEntry) (recursive : Bool) :
    List String × Option String :=
  if !recursive then
    (if HasTerraformFiles root then [rootPath] else [], none)
  else
    (walkTf rootPath rootPath root, none)

mutual
/-- True when the recursive walk reaches an entry whose directory listing
fails, i.e. the callback is invoked with a non-nil error and prints a
warning.  Entries skipped by the hidden-directory rule are never reached. -/
def walkHitsReadError (rootPath : String) (path : String) (e : FSEntry) : Bool :=
  match e with
  | .file _ => false
  | .badDir name => !(goStartsWith name "." && path != rootPath)
  | .dir name children =>
      if goStartsWith name "." && path != rootPath then false
      else walkListHitsReadError rootPath path children
termination_by structural e
def walkListHitsReadError (rootPath : String) (path : String) (l : FSList) : Bool :=
  match l with
  | .nil => false
  | .cons c rest =>
      walkHitsReadError rootPath (path ++ "/" ++ c.name) c
        || walkListHitsReadError rootPath path rest
termination_by structural l
end

/-- One module call as reported by the external parser
(`tfconfig.ModuleCall`): name, source, version constraint (possibly empty),
and the source position (filename and line) of the declaration. -/
structure ModuleCall where
  Name : String
  Source : String
  Version : String
  PosFilename : String
  PosLine : Nat
  deriving Repr, DecidableEq

/-- `ModuleInfo` (package `internal/sbom`). -/
structure ModuleInfo where
  Name : String
  Source : String
  Version : String
  Location : String
  Filename : String
  deriving Repr, DecidableEq

/-- A Go slice: `none` is the nil slice, `some xs` a non-nil slice holding
`xs`.  Ranging and length treat nil like empty; appending always yields a
non-nil slice. -/
abbrev GoSlice (α : Type) := Option (List α)

def GoSlice.elems {α : Type} : GoSlice α → List α := fun s => s.getD []

def GoSlice.isNonNil {α : Type} : GoSlice α → Bool := fun s => s.isSome

/-- `SBOM` (package `internal/sbom`). -/
structure SBOM where
  Version : String
  Generated : String
  Tool : String
  Modules : GoSlice ModuleInfo
  deriving Repr, DecidableEq

/-- The `ModuleInfo` built by the loop body of `Generate` for one module
call: `Name`, `Source`, `Version` copied from the call, `Location` from
`fmt.Sprintf` and `Filename` from `filepath.Base`. -/
def moduleCallInfo (c : ModuleCall) : ModuleInfo :=
  { Name := c.Name
    Source := c.Source
    Version := c.Version
    Location := "Module call at " ++ c.PosFilename ++ ":" ++ toString c.PosLine
    Filename := filepathBase c.PosFilename }

/-- The per-directory loop of `Generate`: load each module directory in
order with the external parser, abort with the wrapped diagnostics of the
first directory that fails, and otherwise append one `ModuleInfo` per module
call in the order the parser yielded them. -/
def collectModules (load : String → Except String (List ModuleCall)) :
    List String → Except String (List ModuleInfo)
  | [] => Except.ok []
  | d :: ds =>
      match load d with
      | Except.error msg =>
          Except.error ("failed to load Terraform module from " ++ d ++ ": " ++ msg)
      | Except.ok calls =>
          Except.map (fun rest => calls.map moduleCallInfo ++ rest) (collectModules load ds)

/-- `Generate` (package `internal/sbom`).  `load` models
`tfconfig.LoadModule` (diagnostics with errors become `Except.error`),
`now` the RFC3339-formatted current time, `entry` the result of statting
`configPath` (`none` when the path does not exist); `configPath` is taken
already absolute, so `filepath.Abs` is the identity on it.  The SBOM's
module slice starts as the non-nil empty literal and is appended to, hence
`some`. -/
def Generate (load : String → Except String (List ModuleCall)) (now : String)
    (entry : Option FSEntry) (configPath : String) (recursive : Bool) :
    Except String SBOM :=
  match ValidateTerraformDirectory entry configPath with
  | Except.error e => Except.error e
  | Except.ok root =>
      match FindTerraformModules configPath root recursive with
      | (_, some e) => Except.error ("failed to find Terraform modules: " ++ e)
      | (moduleDirs, none) =>
          Except.map
            (fun mods =>
              { Version := "1.0"
                Generated := now
                Tool := "terraform-sbom"
                Modules := some mods })
            (collectModules load moduleDirs)

/-- Output of the delimited writer at the level of the calls made to
`csv.Writer.Write`: the configured separator and the sequence of records
written.  Rendering records to bytes is done by the external `encoding/csv`
library and is outside the model. -/
structure Delimited where
  sep : Char
  rows : List (List String)
  deriving Repr, DecidableEq

/-- The data-row loop of `exportDelimited` (package `internal/export`). -/
def delimitedRows : List ModuleInfo → List (List String)
  | [] => []
  | m :: ms => [m.Name, m.Source, m.Version, m.Location] :: delimitedRows ms

/-- `exportDelimited` (package `internal/export`): one header record, then
one record per module of the SBOM in slice order. -/
def exportDelimited (s : SBOM) (sep : Char) : Delimited :=
  { sep := sep
    rows := ["Name", "Source", "Version", "Location"] :: delimitedRows (GoSlice.elems s.Modules) }

/-- `CSV` (package `internal/export`): the delimited writer with a comma. -/
def CSV (s : SBOM) : Delimited := exportDelimited s ','

/-- `TSV` (package `internal/export`): the delimited writer with a tab. -/
def TSV (s : SBOM) : Delimited := exportDelimited s '\t'

/-- One SPDX package as built by `ConvertToSPDX`. -/
structure SPDXPackage where
  PackageName : String
  PackageSPDXIdentifier : String
  PackageDownloadLocation : String
  PackageCopyrightText : String
  PackageVersion : String
  deriving Repr, DecidableEq

/-- The SPDX document envelope as built by `ConvertToSPDX`. -/
structure SPDXDocument where
  SPDXVersion : String
  DataLicense : String
  SPDXIdentifier : String
  DocumentName : String
  DocumentNamespace : String
  Created : String
  Creators : List String
  Packages : List SPDXPackage
  deriving Repr, DecidableEq

/-- The package-building loop of `ConvertToSPDX`, carrying the running
index used in the SPDX identifier. -/
def spdxPackages : Nat → List ModuleInfo → List SPDXPackage
  | _, [] => []
  | i, m :: ms =>
      { PackageName := m.Name
        PackageSPDXIdentifier := "SPDXRef-Package-" ++ toString i
        PackageDownloadLocation := m.Source
        PackageCopyrightText := "NOASSERTION"
        PackageVersion := if m.Version ≠ "" then m.Version else "NOASSERTION" }
        :: spdxPackages (i + 1) ms

/-- `ConvertToSPDX` (package `internal/export`).  `nowNamespace` and
`nowCreated` model the two `time.Now()` format calls. -/
def ConvertToSPDX (nowNamespace nowCreated : String) (s : SBOM) : SPDXDocument :=
  { SPDXVersion := "SPDX-2.3"
    DataLicense := "CC0-1.0"
    SPDXIdentifier := "SPDXRef-DOCUMENT"
    DocumentName := "Terraform Configuration SBOM"
    DocumentNamespace := "https://terraform-sbom.local/" ++ nowNamespace
    Created := nowCreated
    Creators := ["Tool: terraform-sbom"]
    Packages := spdxPackages 0 (GoSlice.elems s.Modules) }

/-- One CycloneDX component as built by `ConvertToCycloneDX`; the Go zero
value "" stands for an unset version or group. -/
structure CycloneDXComponent where
  type : String
  name : String
  version : String
  group : String
  deriving Repr, DecidableEq

/-- The CycloneDX BOM envelope as built by `ConvertToCycloneDX`. -/
structure CycloneDXBOM where
  bomFormat : String
  specVersion : String
  version : Nat
  timestamp : String
  toolName : String
  toolVersion : String
  components : List CycloneDXComponent
  deriving Repr, DecidableEq

/-- The component built by the loop body of `ConvertToCycloneDX` for one
module: type and name always set, version set only when non-empty, and for
a non-empty source the group is the first part of splitting the source on
"/". -/
def cyclonedxComponent (m : ModuleInfo) : CycloneDXComponent :=
  let base : CycloneDXComponent :=
    { type := "library", name := m.Name, version := "", group := "" }
  let withVersion := if m.Version ≠ "" then { base with version := m.Version } else base
  if m.Source.length > 0 then
    match goSplit m.Source '/' with
    | [] => withVersion
    | p :: _ => { withVersion with group := p }
  else withVersion

/-- `ConvertToCycloneDX` (package `internal/export`). -/
def ConvertToCycloneDX (now : String) (s : SBOM) : CycloneDXBOM :=
  { bomFormat := "CycloneDX"
    specVersion := "1.6"
    version := 1
    timestamp := now
    toolName := "terraform-sbom"
    toolVersion := "1.0.0"
    components := (GoSlice.elems s.Modules).map cyclonedxComponent }

/-- Observable filesystem actions of `Export` (package `internal/export`):
creating (or truncating) the output file, then handing it to a format
encoder. -/
inductive ExportStep where
  | createFile (path : String)
  | encode (format : String)
  deriving Repr, DecidableEq

/-- The formats `Export` dispatches on. -/
def supportedFormats : List String := ["json", "xml", "csv", "tsv", "spdx", "cyclonedx"]

/-- `Export` (package `internal/export`): validate the arguments, create
the output file, then dispatch on the format.  `os.Create` is taken to
succeed; the per-format encoders are external and their write errors are
outside the model.  The result pairs the filesystem actions performed with
the returned error, if any. -/
def Export (s : Option SBOM) (format : String) (outputPath : String) :
    List ExportStep × Option String :=
  if s.isNone then ([], some "sbom cannot be nil")
  else if format = "" then ([], some "format cannot be empty")
  else if outputPath = "" then ([], some "output path cannot be empty")
  else
    match format with
    | "json" => ([ExportStep.createFile outputPath, ExportStep.encode "json"], none)
    | "xml" => ([ExportStep.createFile outputPath, ExportStep.encode "xml"], none)
    | "csv" => ([ExportStep.createFile outputPath, ExportStep.encode "csv"], none)
    | "tsv" => ([ExportStep.createFile outputPath, ExportStep.encode "tsv"], none)
    | "spdx" => ([ExportStep.createFile outputPath, ExportStep.encode "spdx"], none)
    | "cyclonedx" => ([ExportStep.createFile outputPath, ExportStep.encode "cyclonedx"], none)
    | _ =>
        ([ExportStep.createFile outputPath],
         some ("unsupported format: " ++ format
            ++ " (supported: json, xml, csv, tsv, spdx, cyclonedx)"))

/-- `GenerateOutputFilename` (package `internal/export`): with an empty
base a default per-format name, otherwise the base with its extension
stripped and the per-format extension appended. -/
def GenerateOutputFilename (baseOutput format : String) : String :=
  if baseOutput = "" then
    match format with
    | "json" => "sbom.json"
    | "xml" => "sbom.xml"
    | "csv" => "sbom.csv"
    | "tsv" => "sbom.tsv"
    | "spdx" => "sbom.spdx.json"
    | "cyclonedx" => "sbom.cyclonedx.json"
    | _ => "sbom.json"
  else
    let ext := filepathExt baseOutput
    let base := goTrimSuffix baseOutput ext
    match format with
    | "json" => base ++ ".json"
    | "xml" => base ++ ".xml"
    | "csv" => base ++ ".csv"
    | "tsv" => base ++ ".tsv"
    | "spdx" => base ++ ".spdx.json"
    | "cyclonedx" => base ++ ".cyclonedx.json"
    | _ => base ++ ".json"

/-- `hasTerraformFiles`, the copy duplicated in `main.go`. -/
def mainHasTerraformFiles : FSEntry → Bool
  | .dir _ children =>
      children.toList.any fun e => !e.isDir && goEndsWith e.name ".tf"
  | _ => false

mutual
/-- The `filepath.WalkDir` traversal inside `findTerraformModules`, the
copy duplicated in `main.go`. -/
def mainWalkTf (rootPath : String) (path : String) (e : FSEntry) : List String :=
  match e with
  | .file _ => []
  | .badDir name =>
      if goStartsWith name "." && path != rootPath then []
      else []
  | .dir name children =>
      if goStartsWith name "." && path != rootPath then []
      else
        (if mainHasTerraformFiles (.dir name children) then [path] else [])
          ++ mainWalkTfList rootPath path children
termination_by structural e
def mainWalkTfList (rootPath : String) (path : String) (l : FSList) : List String :=
  match l with
  | .nil => []
  | .cons c rest =>
      mainWalkTf rootPath (path ++ "/" ++ c.name) c ++ mainWalkTfList rootPath path rest
termination_by structural l
end

/-- `findTerraformModules`, the copy duplicated in `main.go`. -/
def mainFindTerraformModules (rootPath : String) (root : FSEntry) (recursive : Bool) :
    List String × Option String :=
  if !recursive then
    (if mainHasTerraformFiles root then [rootPath] else [], none)
  else
    (mainWalkTf rootPath rootPath root, none)

/-- `generateOutputFilename`, the copy duplicated in `main.go`. -/
def mainGenerateOutputFilename (baseOutput format : String) : String :=
  if baseOutput = "" then
    match format with
    | "json" => "sbom.json"
    | "xml" => "sbom.xml"
    | "csv" => "sbom.csv"
    | "tsv" => "sbom.tsv"
    | "spdx" => "sbom.spdx.json"
    | "cyclonedx" => "sbom.cyclonedx.json"
    | _ => "sbom.json"
  else
    let ext := filepathExt baseOutput
    let base := goTrimSuffix baseOutput ext
    match format with
    | "json" => base ++ ".json"
    | "xml" => base ++ ".xml"
    | "csv" => base ++ ".csv"
    | "tsv" => base ++ ".tsv"
    | "spdx" => base ++ ".spdx.json"
    | "cyclonedx" => base ++ ".cyclonedx.json"
    | _ => base ++ ".json"

/-- Specification-side description of a walk step: from a scanned directory
the walk descends into one of its listed children, except that a child
directory whose name begins with "." is skipped together with its subtree. -/
inductive WalkStep : String × FSEntry → String × FSEntry → Prop
  | intro {p : String} {name : String} {children : FSList} {c : FSEntry} :
      c ∈ children.toList →
      (c.isDir = true → goStartsWith c.name "." = false) →
      WalkStep (p, FSEntry.dir name children) (p ++ "/" ++ c.name, c)

/-- Specification-side reachability: entry `e` at path `p` is scanned by the
recursive walk of `root` mounted at `rootPath`, i.e. reachable by descending
only into non-hidden children.  The root itself is unconstrained, so it is
scanned even when its own name begins with ".". -/
def ScannedFrom (rootPath : String) (root : FSEntry) (p : String) (e : FSEntry) : Prop :=
  Relation.ReflTransGen WalkStep (rootPath, root) (p, e)

/-- Specification-side description of two parser observations of one fixed
filesystem state: for every directory both report the same diagnostics, or
module-call lists that are permutations of one another (Go stores the calls
of a directory in a map, so one run's iteration order is any permutation of
another's). -/
def SameCalls (load₁ load₂ : String → Except String (List ModuleCall)) : Prop :=
  ∀ d, match load₁ d, load₂ d with
    | Except.ok l₁, Except.ok l₂ => l₁.Perm l₂
    | Except.error e₁, Except.error e₂ => e₁ = e₂
    | _, _ => False

/-- The first directory of the list on which the parser fails, with its
diagnostics, if any. -/
def firstLoadFailure (load : String → Except String (List ModuleCall)) :
    List String → Option (String × String)
  | [] => none
  | d :: ds =>
      match load d with
      | Except.error msg => some (d, msg)
      | Except.ok _ => firstLoadFailure load ds

/-- Specification-side wording of the record C4 describes: name, source and
version copied verbatim from the declaration, the human-readable location
string built from the declaration's source position, and the base name of
the declaring file. -/
def specModuleInfo (c : ModuleCall) : ModuleInfo :=
  { Name := c.Name
    Source := c.Source
    Version := c.Version
    Location := "Module call at " ++ c.PosFilename ++ ":" ++ toString c.PosLine
    Filename := filepathBase c.PosFilename }

/-- Specification-side wording of the SPDX package of module `i`:
constants, verbatim copies, the index-derived identifier, and NOASSERTION
for an empty version. -/
def specSPDXPackage (i : Nat) (m : ModuleInfo) : SPDXPackage :=
  { PackageName := m.Name
    PackageSPDXIdentifier := "SPDXRef-Package-" ++ toString i
    PackageDownloadLocation := m.Source
    PackageCopyrightText := "NOASSERTION"
    PackageVersion := if m.Version = "" then "NOASSERTION" else m.Version }

/-- Specification-side wording of the CycloneDX component of a module: the
version is the module's version verbatim (the zero value "" is unset), and
the group is the prefix of the source before the first "/". -/
def specCycloneDXComponent (m : ModuleInfo) : CycloneDXComponent :=
  { type := "library"
    name := m.Name
    version := m.Version
    group := String.mk (m.Source.data.takeWhile (fun c => c ≠ '/')) }

/-- True exactly when an `Except` value is a success. -/
def exceptIsOk {ε α : Type} : Except ε α → Bool
  | Except.ok _ => true
  | Except.error _ => false

deriving instance DecidableEq for Except



example : walkTf "/r" "/r"
    (.dir "r" (.cons (.file "a.tf") (.cons (.dir "s" (.cons (.file "b.tf") .nil)) .nil)))
    = ["/r", "/r/s"] := by decide

example : walkTf "/r" "/r"
    (.dir "r" (.cons (.file "a.tf") (.cons (.dir ".s" (.cons (.file "b.tf") .nil)) .nil)))
    = ["/r"] := by decide

example : walkTf "/r" "/r"
    (.dir ".hidden" (.cons (.file "a.tf") .nil)) = ["/r"] := by decide

example : filepathBase "/work/dir/main.tf" = "main.tf" := by decide

example : filepathExt "out.spdx.json" = ".json" := by decide

example : GenerateOutputFilename "report.txt" "cyclonedx" = "report.cyclonedx.json" := by decide

example : GenerateOutputFilename "" "spdx" = "sbom.spdx.json" := by decide

theorem findModules_pair_eq (rootPath : String) (root : FSEntry) (recursive : Bool) :
    FindTerraformModules rootPath root recursive
      = ((FindTerraformModules rootPath root recursive).1, none) := by
  unfold FindTerraformModules
  split <;> rfl

theorem generate_eq (load : String → Except String (List ModuleCall)) (now : String)
    (entry : Option FSEntry) (configPath : String) (recursive : Bool) :
    Generate load now entry configPath recursive
      = match ValidateTerraformDirectory entry configPath with
        | Except.error e => Except.error e
        | Except.ok root =>
            Except.map
              (fun mods =>
                { Version := "1.0"
                  Generated := now
                  Tool := "terraform-sbom"
                  Modules := some mods })
              (collectModules load (FindTerraformModules configPath root recursive).1) := by
  unfold Generate
  cases ValidateTerraformDirectory entry configPath with
  | error e => rfl
  | ok root => cases recursive with
    | true => rfl
    | false => rfl

theorem delimitedRows_eq (l : List ModuleInfo) :
    delimitedRows l = l.map (fun m => [m.Name, m.Source, m.Version, m.Location]) := by
  induction l with
  | nil => rfl
  | cons m ms ih => simp [delimitedRows, ih]

/-- C5: in non-recursive mode `FindTerraformModules` returns the one-element
list holding the root and no error when the root directory lists at least
one non-directory entry whose name ends in ".tf", and the empty list and no
error otherwise; a file path or a directory whose listing fails has no
observable entries, so it falls in the empty case. -/
theorem findModules_nonrecursive_spec (rootPath : String) (root : FSEntry) :
    (FindTerraformModules rootPath root false
        = (if HasTerraformFiles root then [rootPath] else [], none))
      ∧ (HasTerraformFiles root = true ↔
          ∃ c ∈ root.entries, c.isDir = false ∧ goEndsWith c.name ".tf" = true) := by
  constructor
  · rfl
  · cases root with
    | file n => simp [HasTerraformFiles, FSEntry.entries]
    | badDir n => simp [HasTerraformFiles, FSEntry.entries]
    | dir n children =>
        simp [HasTerraformFiles, FSEntry.entries, List.any_eq_true,
          Bool.and_eq_true, Bool.not_eq_true']

/-- C6: every SBOM returned successfully by `Generate` carries format
version "1.0", tool name "terraform-sbom", the generation timestamp it was
invoked with (the RFC3339-formatted current time), and a non-nil (possibly
empty) module slice. -/
theorem generate_envelope (load : String → Except String (List ModuleCall)) (now : String)
    (entry : Option FSEntry) (configPath : String) (recursive : Bool) (s : SBOM)
    (h : Generate load now entry configPath recursive = Except.ok s) :
    s.Version = "1.0" ∧ s.Tool = "terraform-sbom" ∧ s.Generated = now
      ∧ GoSlice.isNonNil s.Modules = true := by
  rw [generate_eq] at h
  cases hv : ValidateTerraformDirectory entry configPath with
  | error e => rw [hv] at h; cases h
  | ok root =>
    rw [hv] at h
    dsimp only at h
    cases hc : collectModules load (FindTerraformModules configPath root recursive).1 with
    | error e => rw [hc] at h; simp only [Except.map] at h; cases h
    | ok mods =>
      rw [hc] at h
      simp only [Except.map] at h
      cases h
      exact ⟨rfl, rfl, rfl, rfl⟩

theorem generate_envelope_witness :
    ({ Version := "1.0", Generated := "2024-01-01T00:00:00Z", Tool := "terraform-sbom",
       Modules := some [] } : SBOM).Version = "1.0"
      ∧ ({ Version := "1.0", Generated := "2024-01-01T00:00:00Z", Tool := "terraform-sbom",
           Modules := some [] } : SBOM).Tool = "terraform-sbom"
      ∧ ({ Version := "1.0", Generated := "2024-01-01T00:00:00Z", Tool := "terraform-sbom",
           Modules := some [] } : SBOM).Generated = "2024-01-01T00:00:00Z"
      ∧ GoSlice.isNonNil ({ Version := "1.0", Generated := "2024-01-01T00:00:00Z",
                            Tool := "terraform-sbom", Modules := some [] } : SBOM).Modules
          = true :=
  generate_envelope (fun _ => Except.ok []) "2024-01-01T00:00:00Z"
    (some (FSEntry.dir "r" FSList.nil)) "/r" false
    { Version := "1.0", Generated := "2024-01-01T00:00:00Z", Tool := "terraform-sbom",
      Modules := some [] }
    (by decide)

/-- C7: the CSV export writes the header record Name, Source, Version,
Location and then exactly one record per module in slice order holding that
module's Name, Source, Version and Location (Filename is not emitted), and
the TSV export writes the same records with a tab instead of a comma as
separator. -/
theorem csv_tsv_spec (s : SBOM) :
    (CSV s).sep = ','
      ∧ (TSV s).sep = '\t'
      ∧ (CSV s).rows = ["Name", "Source", "Version", "Location"]
          :: (GoSlice.elems s.Modules).map (fun m => [m.Name, m.Source, m.Version, m.Location])
      ∧ (TSV s).rows = (CSV s).rows := by
  refine ⟨rfl, rfl, ?_, rfl⟩
  simp [CSV, exportDelimited, delimitedRows_eq]

/-- C10: `Export` rejects a nil SBOM, an empty format and an empty output
path before performing any filesystem action, but for a non-empty
unsupported format it first creates (truncates) the output file and only
then returns the unsupported-format error, writing nothing to the file. -/
theorem export_validation_spec :
    (∀ format outputPath, Export none format outputPath = ([], some "sbom cannot be nil"))
  ∧ (∀ s outputPath, Export (some s) "" outputPath = ([], some "format cannot be empty"))
  ∧ (∀ s format, format ≠ "" →
      Export (some s) format "" = ([], some "output path cannot be empty"))
  ∧ (∀ s format outputPath, format ≠ "" → outputPath ≠ "" → format ∉ supportedFormats →
      Export (some s) format outputPath
        = ([ExportStep.createFile outputPath],
           some ("unsupported format: " ++ format
              ++ " (supported: json, xml, csv, tsv, spdx, cyclonedx)"))) := by
  refine ⟨fun _ _ => rfl, fun _ _ => rfl, fun s format hf => ?_,
    fun s format outputPath hf hp hns => ?_⟩
  · simp [Export, hf]
  · simp only [Export, Option.isNone_some, Bool.false_eq_true, if_false, if_neg hf, if_neg hp]
    split <;> simp_all [supportedFormats]

theorem export_validation_witness :
    Export (some { Version := "1.0", Generated := "t", Tool := "terraform-sbom",
                   Modules := some [] }) "yaml" "out.txt"
      = ([ExportStep.createFile "out.txt"],
         some ("unsupported format: " ++ "yaml"
            ++ " (supported: json, xml, csv, tsv, spdx, cyclonedx)")) :=
  export_validation_spec.2.2.2
    { Version := "1.0", Generated := "t", Tool := "terraform-sbom", Modules := some [] }
    "yaml" "out.txt" (by decide) (by decide) (by decide)

theorem collectModules_ok_of_loads (load : String → Except String (List ModuleCall))
    (ds : List String) (h : ∀ d, exceptIsOk (load d) = true) :
    ∃ l, collectModules load ds = Except.ok l := by
  induction ds with
  | nil => exact ⟨[], rfl⟩
  | cons d ds ih =>
    obtain ⟨l, hl⟩ := ih
    cases hd : load d with
    | error msg => have := h d; rw [hd] at this; simp [exceptIsOk] at this
    | ok calls =>
        exact ⟨calls.map moduleCallInfo ++ l, by simp [collectModules, hd, hl, Except.map]⟩

theorem collectModules_first_error (load : String → Except String (List ModuleCall))
    (ds : List String) (d : String) (msg : String)
    (h : firstLoadFailure load ds = some (d, msg)) :
    collectModules load ds
      = Except.error ("failed to load Terraform module from " ++ d ++ ": " ++ msg) := by
  induction ds with
  | nil => simp [firstLoadFailure] at h
  | cons d' ds ih =>
    simp only [firstLoadFailure] at h
    cases hd : load d' with
    | error m =>
      rw [hd] at h
      dsimp only at h
      obtain ⟨h1, h2⟩ := Prod.mk.injEq .. ▸ Option.some.injEq .. ▸ h
      subst h1; subst h2
      simp [collectModules, hd]
    | ok calls =>
      rw [hd] at h
      dsimp only at h
      simp [collectModules, hd, ih h, Except.map]

/-- C2 amended: SBOM generation stops and reports the first error for a
failed stat of the input path and for parser diagnostics when loading a
module directory (the reported error is that of the first module directory
whose load fails); filesystem errors during the recursive walk, by
contrast, are logged and the offending entries skipped — they never abort
generation, which succeeds whenever every loaded module directory parses
cleanly. -/
theorem generate_error_policy :
    (∀ load now configPath recursive,
        Generate load now none configPath recursive
          = Except.error ("path does not exist: " ++ configPath))
  ∧ (∀ load now root configPath recursive, root.isDir = false →
        Generate load now (some root) configPath recursive
          = Except.error ("path must be a directory containing Terraform files: " ++ configPath))
  ∧ (∀ load now root configPath recursive, root.isDir = true →
        (∀ d, exceptIsOk (load d) = true) →
        exceptIsOk (Generate load now (some root) configPath recursive) = true)
  ∧ (∀ load now root configPath recursive d msg, root.isDir = true →
        firstLoadFailure load (FindTerraformModules configPath root recursive).1 = some (d, msg) →
        Generate load now (some root) configPath recursive
          = Except.error ("failed to load Terraform module from " ++ d ++ ": " ++ msg)) := by
  refine ⟨fun _ _ _ _ => rfl, fun load now root cp rec h => ?_,
    fun load now root cp rec h hl => ?_, fun load now root cp rec d msg h hf => ?_⟩
  · rw [generate_eq]; simp [ValidateTerraformDirectory, h]
  · obtain ⟨l, hl2⟩ := collectModules_ok_of_loads load (FindTerraformModules cp root rec).1 hl
    rw [generate_eq]
    simp [ValidateTerraformDirectory, h, hl2, Except.map, exceptIsOk]
  · rw [generate_eq]
    simp [ValidateTerraformDirectory, h,
      collectModules_first_error load (FindTerraformModules cp root rec).1 d msg hf, Except.map]

theorem generate_error_policy_witness :
    Generate (fun _ => Except.ok []) "t" (some (FSEntry.file "f")) "/p" false
        = Except.error ("path must be a directory containing Terraform files: " ++ "/p")
      ∧ exceptIsOk (Generate (fun _ => Except.ok []) "t"
            (some (FSEntry.dir "r" (FSList.cons (FSEntry.badDir "sub") FSList.nil))) "/r" true)
          = true
      ∧ Generate (fun _ => Except.error "boom") "t"
            (some (FSEntry.dir "r" (FSList.cons (FSEntry.file "a.tf") FSList.nil))) "/r" false
          = Except.error ("failed to load Terraform module from " ++ "/r" ++ ": " ++ "boom") :=
  ⟨generate_error_policy.2.1 (fun _ => Except.ok []) "t" (FSEntry.file "f") "/p" false rfl,
   generate_error_policy.2.2.1 (fun _ => Except.ok []) "t"
     (FSEntry.dir "r" (FSList.cons (FSEntry.badDir "sub") FSList.nil)) "/r" true rfl
     (fun _ => rfl),
   generate_error_policy.2.2.2 (fun _ => Except.error "boom") "t"
     (FSEntry.dir "r" (FSList.cons (FSEntry.file "a.tf") FSList.nil)) "/r" false "/r" "boom" rfl
     (by decide)⟩

/-- C2 counterexample: on a tree whose recursive walk hits a filesystem
error (an unreadable subdirectory of the root), `Generate` nevertheless
returns a successful SBOM — the walk error is logged to stderr and the
entry skipped, so, contrary to the claim, the error is not reported to the
caller as the result. -/
theorem generate_walk_error_ignored_cex :
    walkHitsReadError "/r" "/r"
        (FSEntry.dir "r" (FSList.cons (FSEntry.badDir "sub") FSList.nil)) = true
      ∧ Generate (fun _ => Except.ok []) "t0"
            (some (FSEntry.dir "r" (FSList.cons (FSEntry.badDir "sub") FSList.nil))) "/r" true
          = Except.ok { Version := "1.0", Generated := "t0", Tool := "terraform-sbom",
                        Modules := some [] } :=
  ⟨by decide, by decide⟩

theorem collectModules_ok_eq (load : String → Except String (List ModuleCall))
    (ds : List String) (l : List ModuleInfo)
    (h : collectModules load ds = Except.ok l) :
    l = ds.flatMap (fun d => ((load d).toOption.getD []).map moduleCallInfo) := by
  induction ds generalizing l with
  | nil =>
    simp only [collectModules] at h
    cases h
    rfl
  | cons d ds ih =>
    simp only [collectModules] at h
    cases hd : load d with
    | error msg => rw [hd] at h; cases h
    | ok calls =>
      rw [hd] at h
      dsimp only at h
      cases hc : collectModules load ds with
      | error e => rw [hc] at h; simp only [Except.map] at h; cases h
      | ok rest =>
        rw [hc] at h
        simp only [Except.map] at h
        cases h
        simp [hd, Except.toOption, ih rest hc]

/-- C4: for every module declaration found, `Generate` creates exactly one
`ModuleInfo`, in order, whose Name, Source and Version are copied verbatim
from the declaration, whose Location is "Module call at file:line" built
from the declaration's position, and whose Filename is the base name of the
declaring file; the resulting list is a pure function of the declarations,
so the records are never modified after creation. -/
theorem generate_moduleinfo_spec (load : String → Except String (List ModuleCall))
    (now : String) (root : FSEntry) (configPath : String) (recursive : Bool) (s : SBOM)
    (h : Generate load now (some root) configPath recursive = Except.ok s) :
    GoSlice.elems s.Modules
      = (FindTerraformModules configPath root recursive).1.flatMap
          (fun d => ((load d).toOption.getD []).map specModuleInfo) := by
  rw [generate_eq] at h
  cases hv : ValidateTerraformDirectory (some root) configPath with
  | error e => rw [hv] at h; cases h
  | ok root' =>
    have hroot : root' = root := by
      unfold ValidateTerraformDirectory at hv
      dsimp only at hv
      cases hd : root.isDir
      · rw [hd] at hv; simp at hv
      · rw [hd] at hv; simp at hv; exact hv.symm
    subst root'
    rw [hv] at h
    dsimp only at h
    cases hc : collectModules load (FindTerraformModules configPath root recursive).1 with
    | error e => rw [hc] at h; simp only [Except.map] at h; cases h
    | ok mods =>
      rw [hc] at h
      simp only [Except.map] at h
      cases h
      exact collectModules_ok_eq load _ mods hc

theorem generate_moduleinfo_witness :
    GoSlice.elems (({ Version := "1.0", Generated := "t", Tool := "terraform-sbom",
                      Modules := some [{ Name := "vpc",
                                         Source := "terraform-aws-modules/vpc/aws",
                                         Version := "~> 5.0",
                                         Location := "Module call at /r/main.tf:3",
                                         Filename := "main.tf" }] } : SBOM).Modules)
      = (FindTerraformModules "/r"
            (FSEntry.dir "r" (FSList.cons (FSEntry.file "main.tf") FSList.nil)) false).1.flatMap
          (fun d =>
            (((fun _ => Except.ok [({ Name := "vpc",
                                      Source := "terraform-aws-modules/vpc/aws",
                                      Version := "~> 5.0",
                                      PosFilename := "/r/main.tf",
                                      PosLine := 3 } : ModuleCall)]
                : String → Except String (List ModuleCall)) d).toOption.getD []).map
              specModuleInfo) :=
  generate_moduleinfo_spec
    (fun _ => Except.ok [{ Name := "vpc", Source := "terraform-aws-modules/vpc/aws",
                           Version := "~> 5.0", PosFilename := "/r/main.tf", PosLine := 3 }])
    "t" (FSEntry.dir "r" (FSList.cons (FSEntry.file "main.tf") FSList.nil)) "/r" false
    { Version := "1.0", Generated := "t", Tool := "terraform-sbom",
      Modules := some [{ Name := "vpc", Source := "terraform-aws-modules/vpc/aws",
                         Version := "~> 5.0",
                         Location := "Module call at /r/main.tf:3",
                         Filename := "main.tf" }] }
    (by decide)

theorem collectModules_perm (load₁ load₂ : String → Except String (List ModuleCall))
    (hsame : SameCalls load₁ load₂) (ds : List String) (l₁ l₂ : List ModuleInfo)
    (h₁ : collectModules load₁ ds = Except.ok l₁)
    (h₂ : collectModules load₂ ds = Except.ok l₂) :
    l₁.Perm l₂ := by
  induction ds generalizing l₁ l₂ with
  | nil =>
    simp only [collectModules] at h₁ h₂
    cases h₁; cases h₂
    exact List.Perm.nil
  | cons d ds ih =>
    have hd := hsame d
    simp only [collectModules] at h₁ h₂
    cases hl₁ : load₁ d with
    | error m₁ => rw [hl₁] at h₁; cases h₁
    | ok calls₁ =>
      cases hl₂ : load₂ d with
      | error m₂ => rw [hl₂] at h₂; cases h₂
      | ok calls₂ =>
        rw [hl₁, hl₂] at hd
        rw [hl₁] at h₁
        rw [hl₂] at h₂
        dsimp only at h₁ h₂ hd
        cases hc₁ : collectModules load₁ ds with
        | error e => rw [hc₁] at h₁; simp only [Except.map] at h₁; cases h₁
        | ok rest₁ =>
          cases hc₂ : collectModules load₂ ds with
          | error e => rw [hc₂] at h₂; simp only [Except.map] at h₂; cases h₂
          | ok rest₂ =>
            rw [hc₁] at h₁
            rw [hc₂] at h₂
            simp only [Except.map] at h₁ h₂
            cases h₁; cases h₂
            exact List.Perm.append (hd.map moduleCallInfo) (ih rest₁ rest₂ hc₁ hc₂)

/-- C3 amended: for a fixed filesystem state, two successful runs of
`Generate` with the same configPath and recursive flag produce SBOMs whose
Modules lists hold the same ModuleInfo records up to order: the module
directory list and the per-directory record contents are deterministic, but
within one directory the records follow the randomized iteration order of
the Go map holding that directory's module calls, so the lists agree only
up to permutation, not record-for-record in the same order. -/
theorem generate_modules_perm (load₁ load₂ : String → Except String (List ModuleCall))
    (now₁ now₂ : String) (entry : Option FSEntry) (configPath : String) (recursive : Bool)
    (s₁ s₂ : SBOM) (hsame : SameCalls load₁ load₂)
    (h₁ : Generate load₁ now₁ entry configPath recursive = Except.ok s₁)
    (h₂ : Generate load₂ now₂ entry configPath recursive = Except.ok s₂) :
    (GoSlice.elems s₁.Modules).Perm (GoSlice.elems s₂.Modules) := by
  rw [generate_eq] at h₁ h₂
  cases hv : ValidateTerraformDirectory entry configPath with
  | error e => rw [hv] at h₁; cases h₁
  | ok root =>
    rw [hv] at h₁ h₂
    dsimp only at h₁ h₂
    cases hc₁ : collectModules load₁ (FindTerraformModules configPath root recursive).1 with
    | error e => rw [hc₁] at h₁; simp only [Except.map] at h₁; cases h₁
    | ok mods₁ =>
      cases hc₂ : collectModules load₂ (FindTerraformModules configPath root recursive).1 with
      | error e => rw [hc₂] at h₂; simp only [Except.map] at h₂; cases h₂
      | ok mods₂ =>
        rw [hc₁] at h₁
        rw [hc₂] at h₂
        simp only [Except.map] at h₁ h₂
        cases h₁; cases h₂
        exact collectModules_perm load₁ load₂ hsame _ mods₁ mods₂ hc₁ hc₂

theorem generate_modules_perm_witness :
    (GoSlice.elems (({ Version := "1.0", Generated := "t1", Tool := "terraform-sbom",
                       Modules := some [] } : SBOM).Modules)).Perm
      (GoSlice.elems (({ Version := "1.0", Generated := "t2", Tool := "terraform-sbom",
                         Modules := some [] } : SBOM).Modules)) :=
  generate_modules_perm (fun _ => Except.ok []) (fun _ => Except.ok []) "t1" "t2"
    (some (FSEntry.dir "r" FSList.nil)) "/r" false
    { Version := "1.0", Generated := "t1", Tool := "terraform-sbom", Modules := some [] }
    { Version := "1.0", Generated := "t2", Tool := "terraform-sbom", Modules := some [] }
    (fun _ => List.Perm.nil) (by decide) (by decide)

/-- C3 counterexample: two runs over one fixed filesystem state, differing
only in the iteration order in which the parser's map yields the two module
calls of the single module directory, produce Modules lists in different
orders, so the list is not a deterministic function of configPath, the
recursive flag and the filesystem state, contrary to the claim. -/
theorem generate_modules_order_cex :
    SameCalls
        (fun _ => Except.ok [{ Name := "m1", Source := "s1", Version := "",
                               PosFilename := "f.tf", PosLine := 1 },
                             { Name := "m2", Source := "s2", Version := "",
                               PosFilename := "f.tf", PosLine := 2 }])
        (fun _ => Except.ok [{ Name := "m2", Source := "s2", Version := "",
                               PosFilename := "f.tf", PosLine := 2 },
                             { Name := "m1", Source := "s1", Version := "",
                               PosFilename := "f.tf", PosLine := 1 }])
      ∧ Except.map (fun s => GoSlice.elems s.Modules)
            (Generate
              (fun _ => Except.ok [{ Name := "m1", Source := "s1", Version := "",
                                     PosFilename := "f.tf", PosLine := 1 },
                                   { Name := "m2", Source := "s2", Version := "",
                                     PosFilename := "f.tf", PosLine := 2 }])
              "t" (some (FSEntry.dir "r" (FSList.cons (FSEntry.file "a.tf") FSList.nil)))
              "/r" false)
          ≠ Except.map (fun s => GoSlice.elems s.Modules)
            (Generate
              (fun _ => Except.ok [{ Name := "m2", Source := "s2", Version := "",
                                     PosFilename := "f.tf", PosLine := 2 },
                                   { Name := "m1", Source := "s1", Version := "",
                                     PosFilename := "f.tf", PosLine := 1 }])
              "t" (some (FSEntry.dir "r" (FSList.cons (FSEntry.file "a.tf") FSList.nil)))
              "/r" false) :=
  ⟨fun _ => List.Perm.swap _ _ _, by decide⟩

theorem goSplitChar_cons_head (sep : Char) (cs : List Char) :
    ∃ ps, goSplitChar sep cs = cs.takeWhile (fun c => c ≠ sep) :: ps := by
  induction cs with
  | nil => exact ⟨[], rfl⟩
  | cons c cs ih =>
    obtain ⟨ps, hps⟩ := ih
    by_cases hc : c = sep
    · exact ⟨goSplitChar sep cs, by simp [goSplitChar, hc, List.takeWhile_cons]⟩
    · exact ⟨ps, by simp [goSplitChar, hc, hps, List.takeWhile_cons]⟩

theorem cyclonedxComponent_eq_spec (m : ModuleInfo) :
    cyclonedxComponent m = specCycloneDXComponent m := by
  obtain ⟨ps, hps⟩ := goSplitChar_cons_head '/' m.Source.data
  have hver : (if m.Version ≠ "" then m.Version else "") = m.Version := by
    by_cases hv : m.Version = "" <;> simp [hv]
  by_cases hs : m.Source.length > 0
  · simp [cyclonedxComponent, specCycloneDXComponent, goSplit, hps, hs]
    by_cases hv : m.Version = "" <;> simp [hv]
  · have hdata : m.Source.data = [] := by
      have : m.Source.data.length = 0 := by
        have hlen : m.Source.length = m.Source.data.length := rfl
        omega
      exact List.length_eq_zero.mp this
    simp [cyclonedxComponent, specCycloneDXComponent, hs, hdata]
    by_cases hv : m.Version = "" <;> simp [hv]

theorem spdxPackages_eq_mapIdx (l : List ModuleInfo) (n : Nat) :
    spdxPackages n l = l.mapIdx (fun i m => specSPDXPackage (n + i) m) := by
  induction l generalizing n with
  | nil => rfl
  | cons m ms ih =>
    rw [spdxPackages, List.mapIdx_cons]
    refine congrArg₂ List.cons ?_ ?_
    · unfold specSPDXPackage
      by_cases hv : m.Version = "" <;> simp [hv]
    · rw [ih (n + 1)]
      have harith : ∀ i : Nat, n + 1 + i = n + (i + 1) := by omega
      congr 1
      funext i mm
      rw [harith i]

/-- C8 amended: the SPDX and CycloneDX builders emit exactly one package
or component per module in Modules order, and every emitted field is a
fixed constant, a verbatim copy of a ModuleInfo field, the module's
position index (the SPDX identifier "SPDXRef-Package-i"), or a value
derived from the module's Source (the CycloneDX group is the prefix of
Source before the first "/"); in particular the SPDX
PackageDownloadLocation is the Source, the SPDX PackageVersion is the
Version or "NOASSERTION" when empty, and the CycloneDX component version is
the Version exactly when non-empty (the zero value "" meaning unset). -/
theorem convert_builders_spec (nowNamespace nowCreated nowX : String) (s : SBOM) :
    (ConvertToSPDX nowNamespace nowCreated s).Packages
        = (GoSlice.elems s.Modules).mapIdx specSPDXPackage
      ∧ (ConvertToCycloneDX nowX s).components
        = (GoSlice.elems s.Modules).map specCycloneDXComponent := by
  constructor
  · have h := spdxPackages_eq_mapIdx (GoSlice.elems s.Modules) 0
    unfold ConvertToSPDX
    dsimp only
    rw [h]
    congr 1
    funext i m
    rw [Nat.zero_add]
  · unfold ConvertToCycloneDX
    dsimp only
    rw [show cyclonedxComponent = specCycloneDXComponent from
      funext cyclonedxComponent_eq_spec]

/-- C8 counterexample: at a module whose Source is "a/x" the emitted
CycloneDX component's group is "a", at one whose Source is "b/y" it is
"b"; the group is therefore not a fixed constant, and "a" is none of the
first module's fields, so it is not a verbatim copy of a ModuleInfo field
either — contradicting the claim that every field is one of the two. -/
theorem cyclonedx_group_cex :
    (ConvertToCycloneDX "t"
        { Version := "1.0", Generated := "t", Tool := "terraform-sbom",
          Modules := some [{ Name := "m", Source := "a/x", Version := "v",
                             Location := "loc", Filename := "f" }] }).components
      = [{ type := "library", name := "m", version := "v", group := "a" }]
  ∧ (ConvertToCycloneDX "t"
        { Version := "1.0", Generated := "t", Tool := "terraform-sbom",
          Modules := some [{ Name := "m", Source := "b/y", Version := "v",
                             Location := "loc", Filename := "f" }] }).components
      = [{ type := "library", name := "m", version := "v", group := "b" }]
  ∧ "a" ∉ ["m", "a/x", "v", "loc", "f"] := by
  exact ⟨by decide, by decide, by decide⟩

mutual
theorem mainWalkTf_eq_walkTf (rootPath path : String) (e : FSEntry) :
    mainWalkTf rootPath path e = walkTf rootPath path e := by
  cases e with
  | file n => rfl
  | badDir n => rfl
  | dir n children =>
      simp only [mainWalkTf, walkTf,
        mainWalkTfList_eq_walkTfList rootPath path children]
      rfl
termination_by structural e
theorem mainWalkTfList_eq_walkTfList (rootPath path : String) (l : FSList) :
    mainWalkTfList rootPath path l = walkTfList rootPath path l := by
  cases l with
  | nil => rfl
  | cons c rest =>
      simp only [mainWalkTfList, walkTfList,
        mainWalkTf_eq_walkTf rootPath (path ++ "/" ++ c.name) c,
        mainWalkTfList_eq_walkTfList rootPath path rest]
termination_by structural l
end

theorem main_find_eq (rootPath : String) (root : FSEntry) (recursive : Bool) :
    mainFindTerraformModules rootPath root recursive
      = FindTerraformModules rootPath root recursive := by
  unfold mainFindTerraformModules FindTerraformModules
  rw [mainWalkTf_eq_walkTf]
  rfl

/-- C9: the implementations duplicated in main.go are extensionally equal
to their internal-package counterparts: for every base output and format
string the two output-filename functions agree, and for every root, tree
and recursive flag the two module finders return the same directory list
and the same (always nil) error. -/
theorem main_duplicates_equivalent :
    (∀ baseOutput format,
        mainGenerateOutputFilename baseOutput format
          = GenerateOutputFilename baseOutput format)
  ∧ (∀ rootPath root recursive,
        mainFindTerraformModules rootPath root recursive
          = FindTerraformModules rootPath root recursive) :=
  ⟨fun _ _ => rfl, main_find_eq⟩

theorem scanned_file {p q n : String} {e : FSEntry}
    (h : Relation.ReflTransGen WalkStep (p, FSEntry.file n) (q, e)) :
    q = p ∧ e = FSEntry.file n := by
  rcases Relation.ReflTransGen.cases_head h with heq | ⟨b, hstep, hrest⟩
  · injection heq with h1 h2
    exact ⟨h1.symm, h2.symm⟩
  · cases hstep

theorem scanned_badDir {p q n : String} {e : FSEntry}
    (h : Relation.ReflTransGen WalkStep (p, FSEntry.badDir n) (q, e)) :
    q = p ∧ e = FSEntry.badDir n := by
  rcases Relation.ReflTransGen.cases_head h with heq | ⟨b, hstep, hrest⟩
  · injection heq with h1 h2
    exact ⟨h1.symm, h2.symm⟩
  · cases hstep

theorem scanned_dir_iff (p q : String) (n : String) (children : FSList) :
    (∃ e', Relation.ReflTransGen WalkStep (p, FSEntry.dir n children) (q, e')
        ∧ HasTerraformFiles e' = true)
      ↔ ((q = p ∧ HasTerraformFiles (FSEntry.dir n children) = true)
          ∨ ∃ c ∈ children.toList,
              (c.isDir = true → goStartsWith c.name "." = false)
                ∧ ∃ e', Relation.ReflTransGen WalkStep (p ++ "/" ++ c.name, c) (q, e')
                    ∧ HasTerraformFiles e' = true) := by
  constructor
  · rintro ⟨e', hchain, htf⟩
    rcases Relation.ReflTransGen.cases_head hchain with heq | ⟨b, hstep, hrest⟩
    · injection heq with h1 h2
      subst h1
      subst h2
      exact Or.inl ⟨rfl, htf⟩
    · cases hstep with
      | intro hmem hhid => exact Or.inr ⟨_, hmem, hhid, e', hrest, htf⟩
  · rintro (⟨hq, htf⟩ | ⟨c, hmem, hhid, e', hchain, htf⟩)
    · subst hq
      exact ⟨FSEntry.dir n children, Relation.ReflTransGen.refl, htf⟩
    · exact ⟨e', Relation.ReflTransGen.head (WalkStep.intro hmem hhid) hchain, htf⟩

mutual
/-- Membership in the output of the walk of one entry: assuming the entry
was itself not skipped, a path is collected exactly when some scanned entry
below it has Terraform files. -/
theorem mem_walkTf (rootPath p q : String) (e : FSEntry)
    (hlen : rootPath.length ≤ p.length)
    (hskip : (goStartsWith e.name "." && (p != rootPath) && e.isDir) = false) :
    q ∈ walkTf rootPath p e
      ↔ ∃ e', Relation.ReflTransGen WalkStep (p, e) (q, e')
          ∧ HasTerraformFiles e' = true := by
  cases e with
  | file n =>
      simp only [walkTf, List.not_mem_nil, false_iff, not_exists]
      rintro e' ⟨hchain, htf⟩
      obtain ⟨hq, he⟩ := scanned_file hchain
      subst he
      simp [HasTerraformFiles] at htf
  | badDir n =>
      have hnil : walkTf rootPath p (FSEntry.badDir n) = [] := by
        simp only [walkTf]
        split <;> rfl
      rw [hnil]
      simp only [List.not_mem_nil, false_iff, not_exists]
      rintro e' ⟨hchain, htf⟩
      obtain ⟨hq, he⟩ := scanned_badDir hchain
      subst he
      simp [HasTerraformFiles] at htf
  | dir n children =>
      simp only [FSEntry.name, FSEntry.isDir, Bool.and_true] at hskip
      have hcond : ¬ ((goStartsWith n "." && (p != rootPath)) = true) := by
        rw [hskip]
        simp
      rw [show walkTf rootPath p (FSEntry.dir n children)
            = (if HasTerraformFiles (FSEntry.dir n children) then [p] else [])
              ++ walkTfList rootPath p children from by
            simp only [walkTf]
            rw [if_neg hcond]]
      rw [List.mem_append, mem_walkTfList rootPath p q children hlen,
        scanned_dir_iff p q n children]
      refine or_congr ?_ Iff.rfl
      by_cases htf : HasTerraformFiles (FSEntry.dir n children) = true <;>
        simp [htf, eq_comm]
termination_by structural e
/-- Membership in the output of the walk of a child list: a path is
collected exactly when it is collected below some listed child that is not
a hidden directory. -/
theorem mem_walkTfList (rootPath p q : String) (l : FSList)
    (hlen : rootPath.length ≤ p.length) :
    q ∈ walkTfList rootPath p l
      ↔ ∃ c ∈ l.toList,
          (c.isDir = true → goStartsWith c.name "." = false)
            ∧ ∃ e', Relation.ReflTransGen WalkStep (p ++ "/" ++ c.name, c) (q, e')
                ∧ HasTerraformFiles e' = true := by
  cases l with
  | nil => simp [walkTfList, FSList.toList]
  | cons c rest =>
      have hp' : rootPath.length ≤ (p ++ "/" ++ c.name).length := by
        rw [String.length_append, String.length_append]
        have : "/".length = 1 := rfl
        omega
      have hne : ((p ++ "/" ++ c.name) != rootPath) = true := by
        refine bne_iff_ne.mpr ?_
        intro hcontra
        have hlc := congrArg String.length hcontra
        rw [String.length_append, String.length_append] at hlc
        have : "/".length = 1 := rfl
        omega
      simp only [walkTfList, List.mem_append, FSList.toList]
      by_cases hhid : c.isDir = true ∧ goStartsWith c.name "." = true
      · have hwalk : walkTf rootPath (p ++ "/" ++ c.name) c = [] := by
          obtain ⟨hd, hh⟩ := hhid
          cases c with
          | file nn => simp [FSEntry.isDir] at hd
          | badDir nn =>
              simp only [walkTf]
              split <;> rfl
          | dir nn cc =>
              simp only [FSEntry.name] at hh hne
              simp [walkTf, FSEntry.name, hh, hne]
        rw [hwalk]
        simp only [List.not_mem_nil, false_or]
        rw [mem_walkTfList rootPath p q rest hlen]
        constructor
        · rintro ⟨c', hmem, hhid', hrest⟩
          exact ⟨c', List.mem_cons_of_mem c hmem, hhid', hrest⟩
        · rintro ⟨c', hmem, hhid', hrest⟩
          rcases List.mem_cons.mp hmem with rfl | hmem'
          · exact absurd (hhid' hhid.1) (by simp [hhid.2])
          · exact ⟨c', hmem', hhid', hrest⟩
      · have hguard : c.isDir = true → goStartsWith c.name "." = false := by
          intro hd
          by_contra hcontra
          refine hhid ⟨hd, ?_⟩
          revert hcontra
          cases goStartsWith c.name "." <;> simp
        have hskip' : (goStartsWith c.name "." && ((p ++ "/" ++ c.name) != rootPath)
            && c.isDir) = false := by
          cases hd : c.isDir
          · simp
          · simp [hguard hd]
        rw [mem_walkTf rootPath (p ++ "/" ++ c.name) q c hp' hskip',
          mem_walkTfList rootPath p q rest hlen]
        constructor
        · rintro (⟨e', hch, htf⟩ | ⟨c', hmem, hhid', hrest⟩)
          · exact ⟨c, List.mem_cons_self c _, hguard, e', hch, htf⟩
          · exact ⟨c', List.mem_cons_of_mem c hmem, hhid', hrest⟩
        · rintro ⟨c', hmem, hhid', hrest⟩
          rcases List.mem_cons.mp hmem with rfl | hmem'
          · exact Or.inl hrest
          · exact Or.inr ⟨c', hmem', hhid', hrest⟩
termination_by structural l
end

/-- C1: in recursive mode, `FindTerraformModules` returns exactly the
paths of those scanned entries that list at least one non-directory entry
whose name ends in ".tf"; the scanned entries are the ones reachable from
the root by descending only into children that are not hidden directories,
so every directory whose name begins with "." other than the root is
skipped together with its entire subtree, while the root itself is scanned
— and may be returned — even when its own name begins with ".". -/
theorem findModules_recursive_spec (rootPath : String) (root : FSEntry) (q : String) :
    q ∈ (FindTerraformModules rootPath root true).1
      ↔ ∃ e, ScannedFrom rootPath root q e ∧ HasTerraformFiles e = true := by
  have h := mem_walkTf rootPath rootPath q root le_rfl (by simp)
  unfold FindTerraformModules
  simpa [ScannedFrom] using h

end TfSbom
